import Mathlib

/-!
Verification of the conversational pipeline of `cheshire_cat.py`
(class `CheshireCat`): input segmentation, memory recall, agent error
recovery, episodic persistence, conversation history, and the tool
index synchronizer (`embed_tools`).

Text is modelled as `List Char`; effectful calls to external
collaborators (embedder, vector store, agent, ingestion) are modelled
by explicit `Except` oracles plus an event trace.
-/

namespace CheshireCat

/-- Error values are plain message strings (Python exception text). -/
abbrev Err := List Char

/-- Python `str.isspace` on a single character, restricted to the ASCII
whitespace characters. -/
def pyIsSpace (c : Char) : Bool :=
  c = ' ' || c = '\t' || c = '\n' || c = '\x0d' || c = '\x0b' || c = '\x0c'

/-- The maximum text input threshold (`MAX_TEXT_INPUT = 500`). -/
def MAX_TEXT_INPUT : Nat := 500

/-- The backward scan of `__call__`'s segmentation loop: starting at
index `i`, decrement while the character is not whitespace and the index
is positive.  Returns the index at which the loop exits (either a
whitespace position, or 0).  Out-of-range defaults use a non-space
character; the pipeline only calls this with `i <` the text length. -/
def scanBack (text : List Char) : Nat → Nat
  | 0 => 0
  | i + 1 => if pyIsSpace (text.getD (i + 1) 'a') then i + 1 else scanBack text i

/-- The oversize-segmentation step of `__call__` (lines 502-512): if the
text length exceeds `MAX_TEXT_INPUT`, scan backwards from index 500 for
whitespace; if the scan reaches index 0 the cut falls back to 500.  The
kept prefix is returned together with the overflow routed to ingestion
(`none` when the message is not oversized). -/
def segmentText (text : List Char) : List Char × Option (List Char) :=
  if text.length > MAX_TEXT_INPUT then
    let j := scanBack text MAX_TEXT_INPUT
    let index := if j = 0 then MAX_TEXT_INPUT else j
    (text.take index, some (text.drop index))
  else
    (text, none)

/-- Python's `pat in s` substring containment on character lists. -/
def containsPat (pat : List Char) : List Char → Bool
  | [] => pat.isEmpty
  | c :: t => pat.isPrefixOf (c :: t) || containsPat pat t

/-- Worker for `pyReplace`: while the skip counter is positive the
character belongs to an occurrence just replaced and is dropped; at 0,
a pattern match emits the replacement and sets the counter to skip the
rest of the occurrence, otherwise the character is kept. -/
def pyReplaceGo (pat rep : List Char) : Nat → List Char → List Char
  | _, [] => []
  | k + 1, _ :: t => pyReplaceGo pat rep k t
  | 0, c :: t =>
    if pat.isPrefixOf (c :: t) then
      rep ++ pyReplaceGo pat rep (pat.length - 1) t
    else
      c :: pyReplaceGo pat rep 0 t

/-- Python's `s.replace(pat, rep)`: replace every (leftmost,
non-overlapping) occurrence of `pat` by `rep`.  The empty pattern is
never used by the code and is mapped to the identity. -/
def pyReplace (pat rep s : List Char) : List Char :=
  match pat with
  | [] => s
  | _ :: _ => pyReplaceGo pat rep 0 s

/-- The delimiter the agent's parse failure embeds the raw model output
in: "Could not parse LLM output: backtick". -/
def parseMarker : List Char := "Could not parse LLM output: `".toList

/-- Embedding vectors, opaque to the pipeline (only compared for
equality). -/
abbrev Vec := List Int

/-- The inbound user message: `user_message_json` restricted to the
fields the pipeline reads (`text`, `user_id`; the default user id is
applied upstream). -/
structure UserMessage where
  text : List Char
  user_id : String
  deriving DecidableEq

/-- One recall configuration dictionary (`default_*_recall_config`). -/
structure RecallConfig where
  embedding : Vec
  k : Nat
  threshold : Rat
  metadata : Option String
  deriving DecidableEq

/-- The default episodic recall config: the single query embedding,
k = 3, threshold = 0.7, metadata filter on the requesting user. -/
def defaultEpisodicRecallConfig (v : Vec) (user_id : String) : RecallConfig :=
  { embedding := v, k := 3, threshold := 7/10, metadata := some user_id }

/-- The default declarative recall config: same vector, no metadata
filter. -/
def defaultDeclarativeRecallConfig (v : Vec) : RecallConfig :=
  { embedding := v, k := 3, threshold := 7/10, metadata := none }

/-- The default procedural recall config: same vector, no metadata
filter. -/
def defaultProceduralRecallConfig (v : Vec) : RecallConfig :=
  { embedding := v, k := 3, threshold := 7/10, metadata := none }

/-- One recalled memory: the `(document, score, distance, id)` tuple
returned by `recall_memories_from_embedding`. -/
structure RecallItem where
  doc : String
  score : Int
  dist : Int
  id : Nat
  deriving DecidableEq

/-- The three per-tier recall result slots written into working
memory. -/
structure RecallResults where
  episodic : List RecallItem
  declarative : List RecallItem
  procedural : List RecallItem
  deriving DecidableEq

/-- One entry of the why-block memory report:
`dict(d[0]) | {"score": float(d[1]), "id": d[3]}` (the distance is
dropped). -/
structure ReportItem where
  doc : String
  score : Int
  id : Nat
  deriving DecidableEq

/-- The why-block's three memory reports. -/
structure MemoryReports where
  episodic : List ReportItem
  declarative : List ReportItem
  procedural : List ReportItem
  deriving DecidableEq

/-- Turn a recalled tuple into its report entry. -/
def toReportItem (d : RecallItem) : ReportItem :=
  { doc := d.doc, score := d.score, id := d.id }

/-- The structure returned by `execute_agent` (and by the parse-failure
fallback): `{input, intermediate_steps, output}`. -/
structure AgentMessage where
  input : List Char
  intermediate_steps : List (List Char)
  output : List Char
  deriving DecidableEq

/-- The `why` block of the final output. -/
structure Why where
  input : List Char
  intermediate_steps : List (List Char)
  memory : MemoryReports
  deriving DecidableEq

/-- The dictionary returned by `__call__`, with optional fields as in
the two dictionary shapes the code builds (chat output and the
`VectorMemoryError` output). -/
structure FinalOutput where
  type : String
  name : Option String
  description : Option String
  user_id : Option String
  content : Option (List Char)
  why : Option Why
  deriving DecidableEq

/-- One conversation-history turn. -/
structure Turn where
  who : String
  message : List Char
  why : Option Why
  deriving DecidableEq

/-- Events recording the pipeline's calls to external collaborators. -/
inductive Event where
  /-- Overflow text routed to the rabbit hole (document ingestion). -/
  | ingest (text : List Char)
  /-- `embedder.embed_query` invocation. -/
  | embed (query : List Char)
  /-- A per-tier vector store recall query. -/
  | query (tier : String) (cfg : RecallConfig)
  /-- `agent_manager.execute_agent` invocation. -/
  | agentCall
  /-- `memory.vectors.episodic.add_texts` of the user message. -/
  | episodicAdd (text : List Char) (source : String) (when : Nat)
  /-- The `before_cat_sends_message` hook invocation. -/
  | sendHook
  deriving DecidableEq

/-- The hook registry as seen by the pipeline: each extension point may
transform its payload or raise. -/
structure Hooks where
  beforeReadMessage : List Char → Except Err (List Char)
  recallQuery : List Char → Except Err (List Char)
  beforeRecalls : Except Err Unit
  beforeEpisodic : RecallConfig → Except Err RecallConfig
  beforeDeclarative : RecallConfig → Except Err RecallConfig
  beforeProcedural : RecallConfig → Except Err RecallConfig
  afterRecalls : Except Err Unit
  beforeSendMessage : FinalOutput → Except Err FinalOutput

/-- Hooks that transform nothing and never raise (no plugins
interfering). -/
def pureHooks : Hooks :=
  { beforeReadMessage := Except.ok
    recallQuery := Except.ok
    beforeRecalls := Except.ok ()
    beforeEpisodic := Except.ok
    beforeDeclarative := Except.ok
    beforeProcedural := Except.ok
    afterRecalls := Except.ok ()
    beforeSendMessage := Except.ok }

/-- The vector store's three per-tier similarity-search entry points;
each may raise (e.g. embedding-dimension mismatch). -/
structure VectorStore where
  queryEpisodic : RecallConfig → Except Err (List RecallItem)
  queryDeclarative : RecallConfig → Except Err (List RecallItem)
  queryProcedural : RecallConfig → Except Err (List RecallItem)

/-- A vector store whose queries always succeed with fixed results. -/
def constStore (e d p : List RecallItem) : VectorStore :=
  { queryEpisodic := fun _ => Except.ok e
    queryDeclarative := fun _ => Except.ok d
    queryProcedural := fun _ => Except.ok p }

/-- The working-memory view handed to the agent. -/
structure AgentInput where
  text : List Char
  recalls : RecallResults
  deriving DecidableEq

/-- `recall_relevant_memories_to_working_memory` (lines 299-378):
query hook, single embedding, pre-recall hook, the three default
configs, one customization hook per tier, then the three store queries
in tier order (episodic, declarative, procedural), then the post-recall
hook.  Any raise propagates to the caller together with the trace of
collaborator calls made so far. -/
def recallStage (hooks : Hooks) (vs : VectorStore)
    (embed : List Char → Except Err Vec) (user_id : String)
    (text : List Char) : Except Err RecallResults × List Event :=
  match hooks.recallQuery text with
  | .error e => (.error e, [])
  | .ok q =>
    match embed q with
    | .error e => (.error e, [.embed q])
    | .ok v =>
      match hooks.beforeRecalls with
      | .error e => (.error e, [.embed q])
      | .ok _ =>
        match hooks.beforeEpisodic (defaultEpisodicRecallConfig v user_id) with
        | .error e => (.error e, [.embed q])
        | .ok cfgE =>
          match hooks.beforeDeclarative (defaultDeclarativeRecallConfig v) with
          | .error e => (.error e, [.embed q])
          | .ok cfgD =>
            match hooks.beforeProcedural (defaultProceduralRecallConfig v) with
            | .error e => (.error e, [.embed q])
            | .ok cfgP =>
              match vs.queryEpisodic cfgE with
              | .error e => (.error e, [.embed q, .query "episodic" cfgE])
              | .ok epi =>
                match vs.queryDeclarative cfgD with
                | .error e =>
                  (.error e, [.embed q, .query "episodic" cfgE, .query "declarative" cfgD])
                | .ok dec =>
                  match vs.queryProcedural cfgP with
                  | .error e =>
                    (.error e,
                     [.embed q, .query "episodic" cfgE, .query "declarative" cfgD,
                      .query "procedural" cfgP])
                  | .ok pro =>
                    match hooks.afterRecalls with
                    | .error e =>
                      (.error e,
                       [.embed q, .query "episodic" cfgE, .query "declarative" cfgD,
                        .query "procedural" cfgP])
                    | .ok _ =>
                      (.ok { episodic := epi, declarative := dec, procedural := pro },
                       [.embed q, .query "episodic" cfgE, .query "declarative" cfgD,
                        .query "procedural" cfgP])

/-- The agent-failure recovery of `__call__` (lines 537-553): failures
whose message does not contain the parse-failure delimiter are
re-raised; otherwise the prefix and every backtick are stripped out of
the message and a minimal agent message is synthesized. -/
def agentErrorRecovery (workText errMsg : List Char) : Except Err AgentMessage :=
  if containsPat parseMarker errMsg then
    .ok { input := workText
          intermediate_steps := []
          output := pyReplace ['`'] [] (pyReplace parseMarker [] errMsg) }
  else
    .error errMsg

/-- The agent-execution stage: call the agent and apply the recovery on
failure. -/
def agentStage (agent : AgentInput → Except Err AgentMessage)
    (workText : List Char) (r : RecallResults) : Except Err AgentMessage :=
  match agent { text := workText, recalls := r } with
  | .ok m => .ok m
  | .error e => agentErrorRecovery workText e

/-- The remediation message of the recall-failure error dictionary in
the source (lines 523-526). -/
def vmErrorDescription : String :=
  "You probably changed Embedder and old vector memory is not compatible. Please delete `core/long_term_memory` folder."

/-- The `VectorMemoryError` dictionary built by the recall except
handler (lines 528-532).  In the running program this return statement
is unreachable: the handler first calls `traceback.print_exc(e)`, which
raises a `TypeError` (see `printExcTypeError`), so `__call__` never
actually produces this dictionary. -/
def vectorMemoryError : FinalOutput :=
  { type := "error"
    name := some "VectorMemoryError"
    description := some vmErrorDescription
    user_id := none
    content := none
    why := none }

/-- The exception the recall except handler itself raises (line 521):
`traceback.print_exc(e)` passes the caught exception as the `limit`
parameter of `print_exc`, and the standard library then evaluates
`limit >= 0`, raising a `TypeError` (comparison between an exception
instance and an int is unsupported).  The real message embeds the class
name of `e`; the class is abstracted here. -/
def printExcTypeError : Err :=
  "TypeError: unsupported comparison between exception and int".toList

/-- The why-block assembled from the agent message and the recall
results. -/
def buildWhy (cmsg : AgentMessage) (r : RecallResults) : Why :=
  { input := cmsg.input
    intermediate_steps := cmsg.intermediate_steps
    memory :=
      { episodic := r.episodic.map toReportItem
        declarative := r.declarative.map toReportItem
        procedural := r.procedural.map toReportItem } }

/-- The chat-typed `final_output` dictionary before the
`before_cat_sends_message` hook. -/
def mkFinalOutput (user_id : String) (cmsg : AgentMessage) (r : RecallResults) : FinalOutput :=
  { type := "chat"
    name := none
    description := none
    user_id := some user_id
    content := some cmsg.output
    why := some (buildWhy cmsg r) }

/-- The ingestion trace of the segmentation step. -/
def segIngest (overflow : Option (List Char)) : List Event :=
  match overflow with
  | some rest => [.ingest rest]
  | none => []

/-- The Python `KeyError` raised when the send hook strips the
`content` or `why` key off the final output. -/
def keyError : Err := "KeyError".toList

/-- `CheshireCat.__call__` (lines 453-595): read hook, oversize
segmentation, recall, agent execution with parse-failure recovery,
unconditional episodic persistence of the working message text, output
assembly, send hook, and the Human/AI history appends.  When the recall
stage raises, the except handler crashes on `traceback.print_exc(e)`
(see `printExcTypeError`) before reaching its `VectorMemoryError`
return, so the pipeline propagates that `TypeError` instead.  Returns
the result (or the propagated exception) together with the final
conversation history and the trace of collaborator calls; a raising
run returns no history value because the history-update step is never
reached, leaving conversation_history unchanged. -/
def handle (hooks : Hooks) (vs : VectorStore)
    (embed : List Char → Except Err Vec)
    (agent : AgentInput → Except Err AgentMessage) (now : Nat)
    (history : List Turn) (msg : UserMessage) :
    Except Err (FinalOutput × List Turn) × List Event :=
  match hooks.beforeReadMessage msg.text with
  | .error e => (.error e, [])
  | .ok t1 =>
    match recallStage hooks vs embed msg.user_id (segmentText t1).1 with
    | (.error _, rtr) =>
      (.error printExcTypeError, segIngest (segmentText t1).2 ++ rtr)
    | (.ok recalls, rtr) =>
      match agentStage agent (segmentText t1).1 recalls with
      | .error e => (.error e, segIngest (segmentText t1).2 ++ rtr ++ [.agentCall])
      | .ok cmsg =>
        match hooks.beforeSendMessage (mkFinalOutput msg.user_id cmsg recalls) with
        | .error e =>
          (.error e,
           segIngest (segmentText t1).2 ++ rtr ++
             [.agentCall, .episodicAdd (segmentText t1).1 msg.user_id now, .sendHook])
        | .ok fo2 =>
          match fo2.content, fo2.why with
          | some c, some w =>
            (.ok (fo2,
                  history ++
                    [{ who := "Human", message := (segmentText t1).1, why := none },
                     { who := "AI", message := c, why := some w }]),
             segIngest (segmentText t1).2 ++ rtr ++
               [.agentCall, .episodicAdd (segmentText t1).1 msg.user_id now, .sendHook])
          | _, _ =>
            (.error keyError,
             segIngest (segmentText t1).2 ++ rtr ++
               [.agentCall, .episodicAdd (segmentText t1).1 msg.user_id now, .sendHook])

/-- A loaded tool (`mad_hatter.tools` entry): name, the description
used as the embeddable text, and the docstring. -/
structure Tool where
  name : String
  description : String
  docstring : String
  deriving DecidableEq

/-- A persisted embedded-tool record: vector store point id plus the
`page_content` description payload. -/
structure ToolRecord where
  id : Nat
  descr : String
  deriving DecidableEq

/-- Calls `embed_tools` issues against the procedural collection. -/
inductive ToolEvent where
  /-- `add_texts` of one tool description with its metadata
  `{source, when, name, docstring}`. -/
  | add (descr : String) (source : String) (when : Nat) (name : String) (docstring : String)
  /-- The single batched `delete` of all stale point ids. -/
  | deleteBatch (ids : List Nat)
  deriving DecidableEq

/-- Fresh records created by `add_texts` calls, with point ids assigned
sequentially from `n`. -/
def mkRecords (n : Nat) : List Tool → List ToolRecord
  | [] => []
  | t :: ts => { id := n, descr := t.description } :: mkRecords (n + 1) ts

/-- `embed_tools` (lines 250-297): fetch all persisted records, upsert
every live tool whose description is absent from the persisted
descriptions (computed once, before any add), then collect the ids of
every persisted record whose description matches no live tool and, if
any, delete them in one batched call.  Returns the procedural
collection contents after the calls, plus the calls issued. -/
def embed_tools (now n : Nat) (persisted : List ToolRecord) (tools : List Tool) :
    List ToolRecord × List ToolEvent :=
  let embedded_descrs := persisted.map (·.descr)
  let toAdd := tools.filter (fun t => decide (t.description ∉ embedded_descrs))
  let addEvents := toAdd.map
    (fun t => ToolEvent.add t.description "tool" now t.name t.docstring)
  let live_descrs := tools.map (·.description)
  let staleIds := (persisted.filter (fun r => decide (r.descr ∉ live_descrs))).map (·.id)
  let delEvents : List ToolEvent := if staleIds = [] then [] else [.deleteBatch staleIds]
  let kept := persisted.filter (fun r => decide (r.descr ∈ live_descrs))
  (kept ++ mkRecords n toAdd, addEvents ++ delEvents)

/-! ### Lemmas about the segmentation scan -/

theorem scanBack_le (text : List Char) : ∀ i, scanBack text i ≤ i := by
  intro i
  induction i with
  | zero => simp [scanBack]
  | succ i ih =>
    simp only [scanBack]
    split
    · exact Nat.le_refl _
    · exact Nat.le_trans ih (Nat.le_succ i)

theorem scanBack_space_or_zero (text : List Char) :
    ∀ i, pyIsSpace (text.getD (scanBack text i) 'a') = true ∨ scanBack text i = 0 := by
  intro i
  induction i with
  | zero => right; simp [scanBack]
  | succ i ih =>
    simp only [scanBack]
    split
    · left; assumption
    · exact ih

theorem scanBack_max (text : List Char) :
    ∀ i m, scanBack text i < m → m ≤ i → pyIsSpace (text.getD m 'a') = false := by
  intro i
  induction i with
  | zero => intro m h1 h2; omega
  | succ i ih =>
    intro m h1 h2
    simp only [scanBack] at h1
    by_cases hsp : pyIsSpace (text.getD (i + 1) 'a') = true
    · rw [if_pos hsp] at h1; omega
    · rw [if_neg hsp] at h1
      rcases Nat.lt_or_ge m (i + 1) with hm | hm
      · exact ih m h1 (by omega)
      · have : m = i + 1 := by omega
        subst this
        exact Bool.eq_false_iff.mpr hsp

theorem scanBack_ge (text : List Char) :
    ∀ i j, j ≤ i → pyIsSpace (text.getD j 'a') = true → j ≤ scanBack text i := by
  intro i
  induction i with
  | zero => intro j h1 _; omega
  | succ i ih =>
    intro j h1 hsp
    simp only [scanBack]
    split
    · exact h1
    · rcases Nat.lt_or_ge j (i + 1) with hj | hj
      · exact ih j (by omega) hsp
      · have : j = i + 1 := by omega
        subst this
        simp_all

/-- When the text is oversized and whitespace occurs at a positive index
at or before 500 (the last such index being `j`), the scan stops at `j`
and the cut happens there. -/
theorem segmentText_ws (text : List Char) (j : Nat)
    (hlen : text.length > 500) (hj1 : 1 ≤ j) (hj2 : j ≤ 500)
    (hsp : pyIsSpace (text.getD j 'a') = true)
    (hmax : ∀ m, m < 501 → j < m → pyIsSpace (text.getD m 'a') = false) :
    segmentText text = (text.take j, some (text.drop j)) := by
  have hge : j ≤ scanBack text 500 := scanBack_ge text 500 j hj2 hsp
  have hle : scanBack text 500 ≤ 500 := scanBack_le text 500
  have heq : scanBack text 500 = j := by
    rcases Nat.lt_or_ge j (scanBack text 500) with hlt | h
    · have := hmax (scanBack text 500) (by omega) hlt
      rcases scanBack_space_or_zero text 500 with h' | h'
      · rw [this] at h'; cases h'
      · omega
    · omega
  have hne : scanBack text 500 ≠ 0 := by omega
  simp only [segmentText, MAX_TEXT_INPUT, heq]
  rw [if_pos hlen, if_neg (by omega : ¬ j = 0)]

/-- When the text is oversized and no whitespace occurs at any positive
index at or before 500, the cut falls back to exactly index 500. -/
theorem segmentText_nows (text : List Char)
    (hlen : text.length > 500)
    (hnone : ∀ m, m < 501 → 1 ≤ m → pyIsSpace (text.getD m 'a') = false) :
    segmentText text = (text.take 500, some (text.drop 500)) := by
  have heq : scanBack text 500 = 0 := by
    rcases scanBack_space_or_zero text 500 with h | h
    · have hle : scanBack text 500 ≤ 500 := scanBack_le text 500
      by_cases h0 : scanBack text 500 = 0
      · exact h0
      · have := hnone (scanBack text 500) (by omega) (by omega)
        rw [this] at h; cases h
    · exact h
  simp only [segmentText, MAX_TEXT_INPUT, heq]
  rw [if_pos hlen]
  simp

/-- Messages of length at most 500 are left unchanged and nothing is
routed to ingestion. -/
theorem segmentText_short (text : List Char) (hlen : text.length ≤ 500) :
    segmentText text = (text, none) := by
  simp only [segmentText, MAX_TEXT_INPUT]
  rw [if_neg (by omega)]

/-- Any successful run past the read hook routes the segmentation
overflow (when present) to document ingestion. -/
theorem ingest_routed (hooks : Hooks) (vs : VectorStore)
    (embed : List Char → Except Err Vec)
    (agent : AgentInput → Except Err AgentMessage) (now : Nat)
    (history : List Turn) (msg : UserMessage) (t1 rest : List Char)
    (h1 : hooks.beforeReadMessage msg.text = .ok t1)
    (h2 : (segmentText t1).2 = some rest) :
    Event.ingest rest ∈ (handle hooks vs embed agent now history msg).2 := by
  unfold handle
  rw [h1]
  rcases hrs : recallStage hooks vs embed msg.user_id (segmentText t1).1 with ⟨res, rtr⟩
  cases res with
  | error e => simp [hrs, h2, segIngest]
  | ok recalls =>
    cases has : agentStage agent (segmentText t1).1 recalls with
    | error e => simp [hrs, has, h2, segIngest]
    | ok cmsg =>
      cases hsend : hooks.beforeSendMessage (mkFinalOutput msg.user_id cmsg recalls) with
      | error e => simp [hrs, has, hsend, h2, segIngest]
      | ok fo2 =>
        cases hc : fo2.content <;> cases hw : fo2.why <;>
          simp [hrs, has, hsend, hc, hw, h2, segIngest]

/-- The text of the C1 counterexample: whitespace only at index 0,
followed by 500 non-space characters. -/
def c1Text : List Char := ' ' :: List.replicate 500 'a'

/-- C1 counterexample.  For `c1Text` (length 501 > 500), whitespace does
occur in the first 500 characters — the last whitespace at or before
index 500 is index 0 — yet the pipeline does not cut there: it falls
back to the hard cut at index 500. -/
theorem getD_replicate (c d : Char) : ∀ k m, m < k → (List.replicate k c).getD m d = c := by
  intro k
  induction k with
  | zero => intro m h; omega
  | succ k ih =>
    intro m h
    rcases m with _ | m
    · simp [List.replicate_succ]
    · simp only [List.replicate_succ, List.getD_cons_succ]
      exact ih m (by omega)

theorem c1_counterexample :
    c1Text.length > 500 ∧
    pyIsSpace (c1Text.getD 0 'a') = true ∧
    (∀ m, m < 501 → 1 ≤ m → pyIsSpace (c1Text.getD m 'a') = false) ∧
    segmentText c1Text = (c1Text.take 500, some (c1Text.drop 500)) ∧
    c1Text.take 500 ≠ c1Text.take 0 := by
  have hlen : c1Text.length = 501 := by
    simp only [c1Text, List.length_cons, List.length_replicate]
  have hnone : ∀ m, m < 501 → 1 ≤ m → pyIsSpace (c1Text.getD m 'a') = false := by
    intro m h1 h2
    have hm : c1Text.getD m 'a' = 'a' := by
      rcases m with _ | m
      · omega
      · simp only [c1Text, List.getD_cons_succ]
        exact getD_replicate 'a' 'a' 500 m (by omega)
    rw [hm]
    rfl
  refine ⟨by omega, rfl, hnone, segmentText_nows c1Text (by omega) hnone, ?_⟩
  intro h
  have hcon := congrArg List.length h
  simp only [List.length_take, hlen] at hcon
  omega

/-- C1 (amended).  Oversize segmentation: messages of length at most
500 are left unchanged with nothing routed to ingestion; for an
oversized message, the cut is at the last whitespace index that is both
positive and at most 500 (keeping the prefix before it, routing the
remainder from that index onward to ingestion); when no whitespace
occurs at a positive index at or before 500 (even if index 0 is
whitespace), the cut is exactly at index 500. -/
theorem c1_segmentation (text : List Char) (j : Nat) :
    (text.length ≤ 500 → segmentText text = (text, none)) ∧
    (text.length > 500 → 1 ≤ j → j ≤ 500 → pyIsSpace (text.getD j 'a') = true →
      (∀ m, m < 501 → j < m → pyIsSpace (text.getD m 'a') = false) →
      segmentText text = (text.take j, some (text.drop j))) ∧
    (text.length > 500 →
      (∀ m, m < 501 → 1 ≤ m → pyIsSpace (text.getD m 'a') = false) →
      segmentText text = (text.take 500, some (text.drop 500))) ∧
    (∀ (hooks : Hooks) (vs : VectorStore) (embed : List Char → Except Err Vec)
       (agent : AgentInput → Except Err AgentMessage) (now : Nat)
       (history : List Turn) (msg : UserMessage) (rest : List Char),
       hooks.beforeReadMessage msg.text = .ok text →
       (segmentText text).2 = some rest →
       Event.ingest rest ∈ (handle hooks vs embed agent now history msg).2) := by
  refine ⟨segmentText_short text, ?_, segmentText_nows text, ?_⟩
  · intro h1 h2 h3 h4 h5
    exact segmentText_ws text j h1 h2 h3 h4 h5
  · intro hooks vs embed agent now history msg rest h1 h2
    exact ingest_routed hooks vs embed agent now history msg text rest h1 h2

/-- The spec's segmentation example: length 650 with the last
whitespace at or before 500 sitting at index 480. -/
def c1WitnessText : List Char := List.replicate 480 'a' ++ ' ' :: List.replicate 169 'b'

/-- C1 witness: the length-650 text with a space at index 480 is cut at
480; a short text is left unchanged. -/
theorem c1_witness :
    segmentText c1WitnessText = (c1WitnessText.take 480, some (c1WitnessText.drop 480)) ∧
    segmentText (List.replicate 3 'x') = (List.replicate 3 'x', none) := by
  constructor
  · apply (c1_segmentation c1WitnessText 480).2.1
    · simp only [c1WitnessText, List.length_append, List.length_replicate,
        List.length_cons]
      omega
    · omega
    · omega
    · have h480 : (List.replicate 480 'a').length ≤ 480 := by
        rw [List.length_replicate]
      rw [c1WitnessText, List.getD_append_right _ _ _ _ h480]
      rw [List.length_replicate, Nat.sub_self, List.getD_cons_zero]
      rfl
    · intro m hm1 hm2
      have h480 : (List.replicate 480 'a').length ≤ m := by
        simp only [List.length_replicate]; omega
      rw [c1WitnessText, List.getD_append_right _ _ _ _ h480]
      have hlen480 : (List.replicate 480 'a').length = 480 := List.length_replicate _ _
      obtain ⟨k, hk, hk2⟩ : ∃ k, m - (List.replicate 480 'a').length = k + 1 ∧ k < 169 :=
        ⟨m - 481, by omega, by omega⟩
      rw [hk, List.getD_cons_succ, getD_replicate 'b' 'a' 169 k hk2]
      rfl
  · exact (c1_segmentation (List.replicate 3 'x') 0).1 (by decide)

/-! ### Lemmas about Python string replace / containment -/

theorem containsPat_append_self (pat rest : List Char) :
    containsPat pat (pat ++ rest) = true := by
  cases pat with
  | nil =>
    cases rest with
    | nil => rfl
    | cons c t => simp [containsPat]
  | cons p ps =>
    simp only [List.cons_append, containsPat, Bool.or_eq_true]
    left
    exact List.isPrefixOf_iff_prefix.mpr ⟨rest, by simp⟩

theorem pyReplaceGo_skip (pat rep : List Char) :
    ∀ t k, pyReplaceGo pat rep k t = pyReplaceGo pat rep 0 (t.drop k) := by
  intro t
  induction t with
  | nil => intro k; cases k <;> rfl
  | cons c t ih =>
    intro k
    cases k with
    | zero => rfl
    | succ k =>
      rw [List.drop_succ_cons]
      exact ih k

theorem pyReplace_head_match (p : Char) (ps rep rest : List Char) :
    pyReplace (p :: ps) rep ((p :: ps) ++ rest) = rep ++ pyReplace (p :: ps) rep rest := by
  simp only [pyReplace, List.cons_append, pyReplaceGo]
  rw [if_pos (List.isPrefixOf_iff_prefix.mpr ⟨rest, by simp⟩)]
  rw [pyReplaceGo_skip]
  simp only [List.length_cons, Nat.add_sub_cancel, List.append_eq, List.drop_left]

theorem pyReplace_no_occur (pat rep : List Char) :
    ∀ s, containsPat pat s = false → pyReplace pat rep s = s := by
  intro s
  induction s with
  | nil =>
    intro h
    cases pat <;> rfl
  | cons c t ih =>
    intro h
    cases pat with
    | nil => simp [containsPat] at h
    | cons p ps =>
      simp only [containsPat, Bool.or_eq_false_iff] at h
      simp only [pyReplace, pyReplaceGo] at ih ⊢
      rw [if_neg (by simp [h.1])]
      rw [ih h.2]

theorem pyReplace_backtick (s : List Char) :
    pyReplace ['`'] [] s = s.filter (· ≠ '`') := by
  induction s with
  | nil => rfl
  | cons c t ih =>
    simp only [pyReplace, pyReplaceGo] at ih ⊢
    by_cases hc : c = '`'
    · subst hc
      rw [if_pos (show (['`'].isPrefixOf ('`' :: t)) = true by simp [List.isPrefixOf])]
      simpa using ih
    · rw [if_neg (by simp [List.isPrefixOf, Ne.symm hc])]
      simp [List.filter_cons, hc, ih]

theorem filter_backtick_ne (raw : List Char) (hmem : '`' ∈ raw) :
    raw.filter (· ≠ '`') ≠ raw := by
  intro h
  have := List.mem_filter.mp (h ▸ hmem)
  simp at this

/-- The recovered output for an error message of the delimiter shape:
the marker occurrence is removed, then every backtick. -/
theorem recovery_of_delimited (raw : List Char)
    (h : containsPat parseMarker (raw ++ ['`']) = false) :
    pyReplace ['`'] [] (pyReplace parseMarker [] (parseMarker ++ raw ++ ['`'])) =
      raw.filter (· ≠ '`') := by
  have h1 : pyReplace parseMarker [] (parseMarker ++ (raw ++ ['`'])) =
      [] ++ pyReplace parseMarker [] (raw ++ ['`']) := by
    rw [show parseMarker = 'C' :: parseMarker.tail from rfl]
    exact pyReplace_head_match 'C' parseMarker.tail [] (raw ++ ['`'])
  rw [List.append_assoc, h1, pyReplace_no_occur parseMarker [] (raw ++ ['`']) h]
  rw [List.nil_append, pyReplace_backtick, List.filter_append]
  simp

/-- C10: in the agent parse-failure fallback, the recovered output is
the failure message with the delimiter prefix removed and every
backtick removed; for a message embedding raw text that itself contains
backticks, the returned output is the raw text with all its backticks
stripped — not the raw text verbatim. -/
theorem c10_backtick_stripping (workText err raw : List Char) :
    (containsPat parseMarker err = true →
      agentErrorRecovery workText err =
        .ok { input := workText, intermediate_steps := [],
              output := pyReplace ['`'] [] (pyReplace parseMarker [] err) }) ∧
    (containsPat parseMarker (raw ++ ['`']) = false →
      agentErrorRecovery workText (parseMarker ++ raw ++ ['`']) =
        .ok { input := workText, intermediate_steps := [],
              output := raw.filter (· ≠ '`') }) ∧
    ('`' ∈ raw → raw.filter (· ≠ '`') ≠ raw) := by
  refine ⟨?_, ?_, filter_backtick_ne raw⟩
  · intro h
    rw [agentErrorRecovery, if_pos h]
  · intro h
    rw [agentErrorRecovery,
      if_pos (by rw [List.append_assoc]; exact containsPat_append_self _ _),
      recovery_of_delimited raw h]

/-- C10 witness: for raw text "a`b" the recovery yields "ab", which is
not the raw text verbatim. -/
theorem c10_witness :
    agentErrorRecovery "x".toList (parseMarker ++ "a`b".toList ++ ['`']) =
      .ok { input := "x".toList, intermediate_steps := [],
            output := ("a`b".toList).filter (· ≠ '`') } ∧
    ("a`b".toList).filter (· ≠ '`') ≠ "a`b".toList := by
  refine ⟨(c10_backtick_stripping "x".toList [] "a`b".toList).2.1 (by decide),
          (c10_backtick_stripping "x".toList [] "a`b".toList).2.2 (by decide)⟩

/-- C3 counterexample.  For the agent failure message
"Could not parse LLM output: (backtick)a(backtick)b(backtick)" — which
contains the delimiter pattern and embeds the raw text "a`b" — the
synthesized output is "ab", not the raw unparsed text "a`b": the
embedded backtick is stripped. -/
theorem c3_counterexample :
    containsPat parseMarker ("Could not parse LLM output: `a`b`".toList) = true ∧
    agentErrorRecovery "x".toList ("Could not parse LLM output: `a`b`".toList) =
      .ok { input := "x".toList, intermediate_steps := [], output := "ab".toList } ∧
    "ab".toList ≠ "a`b".toList := by
  refine ⟨by decide, rfl, by decide⟩

/-! ### Trace-shape lemmas for the pipeline -/

/-- Every event the recall stage emits is an embedder call or a vector
store query. -/
theorem recallStage_events (hooks : Hooks) (vs : VectorStore)
    (embed : List Char → Except Err Vec) (uid : String) (text : List Char) :
    ∀ ev ∈ (recallStage hooks vs embed uid text).2,
      (∃ q, ev = Event.embed q) ∨ (∃ t c, ev = Event.query t c) := by
  unfold recallStage
  repeat' split
  all_goals intro ev hev
  all_goals simp only [List.mem_cons, List.not_mem_nil, or_false] at hev
  all_goals try cases hev
  all_goals try subst ev
  all_goals try simp_all
  all_goals tauto

/-- Every event the segmentation step emits is an ingestion call. -/
theorem segIngest_events (o : Option (List Char)) :
    ∀ ev ∈ segIngest o, ∃ t, ev = Event.ingest t := by
  cases o <;> simp [segIngest]

/-- C2 (code bug): the claim matches the code's own intent — the
`VectorMemoryError` return sits right below the handler — but the
handler first calls `traceback.print_exc(e)`, which raises a
`TypeError`.  When the memory-recall stage raises, `handle` therefore
propagates that `TypeError` and never returns any structured output
(in particular not the `VectorMemoryError` one); the agent and
episodic persistence are still not invoked, and there is no retry. -/
theorem c2_recall_failure (hooks : Hooks) (vs : VectorStore)
    (embed : List Char → Except Err Vec)
    (agent : AgentInput → Except Err AgentMessage) (now : Nat)
    (history : List Turn) (msg : UserMessage) (t1 : List Char) (e : Err)
    (h1 : hooks.beforeReadMessage msg.text = .ok t1)
    (h2 : (recallStage hooks vs embed msg.user_id (segmentText t1).1).1 = .error e) :
    (handle hooks vs embed agent now history msg).1 = .error printExcTypeError ∧
    (∀ p : FinalOutput × List Turn,
      (handle hooks vs embed agent now history msg).1 ≠ .ok p) ∧
    (∀ hist2 : List Turn,
      (handle hooks vs embed agent now history msg).1 ≠
        .ok (vectorMemoryError, hist2)) ∧
    Event.agentCall ∉ (handle hooks vs embed agent now history msg).2 ∧
    (∀ t s w, Event.episodicAdd t s w ∉ (handle hooks vs embed agent now history msg).2) := by
  rcases hrs : recallStage hooks vs embed msg.user_id (segmentText t1).1 with ⟨res, rtr⟩
  rw [hrs] at h2
  simp only at h2
  subst h2
  have htr : handle hooks vs embed agent now history msg =
      (.error printExcTypeError, segIngest (segmentText t1).2 ++ rtr) := by
    unfold handle
    rw [h1]
    simp only [hrs]
  have hrtr : ∀ ev ∈ rtr, (∃ q, ev = Event.embed q) ∨ (∃ t c, ev = Event.query t c) := by
    have := recallStage_events hooks vs embed msg.user_id (segmentText t1).1
    rw [hrs] at this
    exact this
  refine ⟨by rw [htr], ?_, ?_, ?_, ?_⟩
  · intro p hp
    rw [htr] at hp
    exact Except.noConfusion hp
  · intro hist2 hp
    rw [htr] at hp
    exact Except.noConfusion hp
  · rw [htr]
    intro hmem
    rcases List.mem_append.mp hmem with hl | hr
    · obtain ⟨t, ht⟩ := segIngest_events _ _ hl
      cases ht
    · rcases hrtr _ hr with ⟨q, hq⟩ | ⟨t, c, htc⟩ <;> simp_all
  · intro t s w
    rw [htr]
    intro hmem
    rcases List.mem_append.mp hmem with hl | hr
    · obtain ⟨t', ht⟩ := segIngest_events _ _ hl
      cases ht
    · rcases hrtr _ hr with ⟨q, hq⟩ | ⟨t', c, htc⟩ <;> simp_all

/-- A vector store all of whose queries raise. -/
def failStore (e : Err) : VectorStore :=
  { queryEpisodic := fun _ => .error e
    queryDeclarative := fun _ => .error e
    queryProcedural := fun _ => .error e }

/-- C2 witness: a concrete run whose episodic query raises propagates
the handler's `TypeError`, returns no structured output at all, and
calls neither the agent nor episodic persistence. -/
theorem c2_witness :
    (handle pureHooks (failStore "boom".toList) (fun _ => .ok [1])
        (fun _ => .ok { input := [], intermediate_steps := [], output := [] })
        0 [] { text := "hi".toList, user_id := "u" }).1 =
      .error printExcTypeError ∧
    (∀ p : FinalOutput × List Turn,
      (handle pureHooks (failStore "boom".toList) (fun _ => .ok [1])
        (fun _ => .ok { input := [], intermediate_steps := [], output := [] })
        0 [] { text := "hi".toList, user_id := "u" }).1 ≠ .ok p) ∧
    (∀ hist2 : List Turn,
      (handle pureHooks (failStore "boom".toList) (fun _ => .ok [1])
        (fun _ => .ok { input := [], intermediate_steps := [], output := [] })
        0 [] { text := "hi".toList, user_id := "u" }).1 ≠
        .ok (vectorMemoryError, hist2)) ∧
    Event.agentCall ∉ (handle pureHooks (failStore "boom".toList) (fun _ => .ok [1])
        (fun _ => .ok { input := [], intermediate_steps := [], output := [] })
        0 [] { text := "hi".toList, user_id := "u" }).2 ∧
    (∀ t s w, Event.episodicAdd t s w ∉
      (handle pureHooks (failStore "boom".toList) (fun _ => .ok [1])
        (fun _ => .ok { input := [], intermediate_steps := [], output := [] })
        0 [] { text := "hi".toList, user_id := "u" }).2) :=
  c2_recall_failure pureHooks (failStore "boom".toList) (fun _ => .ok [1])
    (fun _ => .ok { input := [], intermediate_steps := [], output := [] })
    0 [] { text := "hi".toList, user_id := "u" } "hi".toList "boom".toList rfl rfl

/-- Symbolic run of `handle` along the fully successful path. -/
theorem handle_ok_path (hooks : Hooks) (vs : VectorStore)
    (embed : List Char → Except Err Vec)
    (agent : AgentInput → Except Err AgentMessage) (now : Nat)
    (history : List Turn) (msg : UserMessage) (t1 : List Char)
    (r : RecallResults) (rtr : List Event) (cmsg : AgentMessage)
    (fo2 : FinalOutput) (c : List Char) (w : Why)
    (h1 : hooks.beforeReadMessage msg.text = .ok t1)
    (h2 : recallStage hooks vs embed msg.user_id (segmentText t1).1 = (.ok r, rtr))
    (h3 : agentStage agent (segmentText t1).1 r = .ok cmsg)
    (h4 : hooks.beforeSendMessage (mkFinalOutput msg.user_id cmsg r) = .ok fo2)
    (h5 : fo2.content = some c) (h6 : fo2.why = some w) :
    handle hooks vs embed agent now history msg =
      (.ok (fo2,
            history ++
              [{ who := "Human", message := (segmentText t1).1, why := none },
               { who := "AI", message := c, why := some w }]),
       segIngest (segmentText t1).2 ++ rtr ++
         [.agentCall, .episodicAdd (segmentText t1).1 msg.user_id now, .sendHook]) := by
  unfold handle
  rw [h1]
  simp only [h2, h3, h4, h5, h6]

/-- Symbolic run of `handle` when the send hook raises. -/
theorem handle_send_raise (hooks : Hooks) (vs : VectorStore)
    (embed : List Char → Except Err Vec)
    (agent : AgentInput → Except Err AgentMessage) (now : Nat)
    (history : List Turn) (msg : UserMessage) (t1 : List Char)
    (r : RecallResults) (rtr : List Event) (cmsg : AgentMessage) (e : Err)
    (h1 : hooks.beforeReadMessage msg.text = .ok t1)
    (h2 : recallStage hooks vs embed msg.user_id (segmentText t1).1 = (.ok r, rtr))
    (h3 : agentStage agent (segmentText t1).1 r = .ok cmsg)
    (h4 : hooks.beforeSendMessage (mkFinalOutput msg.user_id cmsg r) = .error e) :
    handle hooks vs embed agent now history msg =
      (.error e,
       segIngest (segmentText t1).2 ++ rtr ++
         [.agentCall, .episodicAdd (segmentText t1).1 msg.user_id now, .sendHook]) := by
  unfold handle
  rw [h1]
  simp only [h2, h3, h4]

/-- Symbolic run of `handle` when the agent stage raises fatally. -/
theorem handle_agent_raise (hooks : Hooks) (vs : VectorStore)
    (embed : List Char → Except Err Vec)
    (agent : AgentInput → Except Err AgentMessage) (now : Nat)
    (history : List Turn) (msg : UserMessage) (t1 : List Char)
    (r : RecallResults) (rtr : List Event) (e : Err)
    (h1 : hooks.beforeReadMessage msg.text = .ok t1)
    (h2 : recallStage hooks vs embed msg.user_id (segmentText t1).1 = (.ok r, rtr))
    (h3 : agentStage agent (segmentText t1).1 r = .error e) :
    handle hooks vs embed agent now history msg =
      (.error e, segIngest (segmentText t1).2 ++ rtr ++ [.agentCall]) := by
  unfold handle
  rw [h1]
  simp only [h2, h3]

/-- Symbolic run of `handle` when the read hook raises. -/
theorem handle_read_raise (hooks : Hooks) (vs : VectorStore)
    (embed : List Char → Except Err Vec)
    (agent : AgentInput → Except Err AgentMessage) (now : Nat)
    (history : List Turn) (msg : UserMessage) (e : Err)
    (h1 : hooks.beforeReadMessage msg.text = .error e) :
    handle hooks vs embed agent now history msg = (.error e, []) := by
  unfold handle
  rw [h1]

/-- Symbolic run of `handle` when the recall stage raises: the except
handler crashes on `traceback.print_exc(e)` and the `TypeError`
propagates. -/
theorem handle_recall_raise (hooks : Hooks) (vs : VectorStore)
    (embed : List Char → Except Err Vec)
    (agent : AgentInput → Except Err AgentMessage) (now : Nat)
    (history : List Turn) (msg : UserMessage) (t1 : List Char)
    (rtr : List Event) (e : Err)
    (h1 : hooks.beforeReadMessage msg.text = .ok t1)
    (h2 : recallStage hooks vs embed msg.user_id (segmentText t1).1 = (.error e, rtr)) :
    handle hooks vs embed agent now history msg =
      (.error printExcTypeError, segIngest (segmentText t1).2 ++ rtr) := by
  unfold handle
  rw [h1]
  simp only [h2]

/-- C5: every run of `handle` that completes (agent success or
parse-failure degradation both pass through the same tail) appends
exactly one "Human" turn followed by one "AI" turn carrying the
why-block, in that order, to the conversation history.  On a
recall-stage failure the pipeline raises (the except handler's own
`TypeError`) before the history-update step: no run result carrying a
history is produced, so conversation_history is left unchanged. -/
theorem c5_history_append (hooks : Hooks) (vs : VectorStore)
    (embed : List Char → Except Err Vec)
    (agent : AgentInput → Except Err AgentMessage) (now : Nat)
    (history : List Turn) (msg : UserMessage) (t1 : List Char)
    (h1 : hooks.beforeReadMessage msg.text = .ok t1) :
    (∀ (r : RecallResults) (rtr : List Event) (cmsg : AgentMessage)
       (fo2 : FinalOutput) (c : List Char) (w : Why),
       recallStage hooks vs embed msg.user_id (segmentText t1).1 = (.ok r, rtr) →
       agentStage agent (segmentText t1).1 r = .ok cmsg →
       hooks.beforeSendMessage (mkFinalOutput msg.user_id cmsg r) = .ok fo2 →
       fo2.content = some c → fo2.why = some w →
       (handle hooks vs embed agent now history msg).1 =
         .ok (fo2,
              history ++
                [{ who := "Human", message := (segmentText t1).1, why := none },
                 { who := "AI", message := c, why := some w }])) ∧
    (∀ e : Err,
       (recallStage hooks vs embed msg.user_id (segmentText t1).1).1 = .error e →
       (handle hooks vs embed agent now history msg).1 = .error printExcTypeError ∧
       ∀ p : FinalOutput × List Turn,
         (handle hooks vs embed agent now history msg).1 ≠ .ok p) := by
  constructor
  · intro r rtr cmsg fo2 c w h2 h3 h4 h5 h6
    rw [handle_ok_path hooks vs embed agent now history msg t1 r rtr cmsg fo2 c w
      h1 h2 h3 h4 h5 h6]
  · intro e h2
    rcases hrs : recallStage hooks vs embed msg.user_id (segmentText t1).1 with ⟨res, rtr⟩
    rw [hrs] at h2
    simp only at h2
    subst h2
    rw [handle_recall_raise hooks vs embed agent now history msg t1 rtr e h1 hrs]
    exact ⟨rfl, fun p hp => Except.noConfusion hp⟩

/-- The concrete agent reply used in witnesses. -/
def wAgentMsg : AgentMessage :=
  { input := "hi".toList, intermediate_steps := [], output := "yo".toList }

/-- C5 witness: after a concrete successful run the final history is
exactly a "Human" turn followed by an "AI" turn with its why-block; on
a concrete recall failure the run raises and never produces a history
value. -/
theorem c5_witness :
    (handle pureHooks (constStore [] [] []) (fun _ => .ok [1])
        (fun _ => .ok wAgentMsg) 0 [] { text := "hi".toList, user_id := "u" }).1 =
      .ok (mkFinalOutput "u" wAgentMsg { episodic := [], declarative := [], procedural := [] },
           [{ who := "Human", message := "hi".toList, why := none },
            { who := "AI", message := "yo".toList,
              why := some (buildWhy wAgentMsg
                { episodic := [], declarative := [], procedural := [] }) }]) ∧
    ((handle pureHooks (failStore "x".toList) (fun _ => .ok [1])
        (fun _ => .ok wAgentMsg) 0
        [{ who := "Human", message := "a".toList, why := none }]
        { text := "hi".toList, user_id := "u" }).1 = .error printExcTypeError ∧
     ∀ p : FinalOutput × List Turn,
       (handle pureHooks (failStore "x".toList) (fun _ => .ok [1])
        (fun _ => .ok wAgentMsg) 0
        [{ who := "Human", message := "a".toList, why := none }]
        { text := "hi".toList, user_id := "u" }).1 ≠ .ok p) :=
  ⟨(c5_history_append pureHooks (constStore [] [] []) (fun _ => .ok [1])
      (fun _ => .ok wAgentMsg) 0 [] { text := "hi".toList, user_id := "u" }
      "hi".toList rfl).1
      { episodic := [], declarative := [], procedural := [] } _ wAgentMsg
      (mkFinalOutput "u" wAgentMsg { episodic := [], declarative := [], procedural := [] })
      "yo".toList
      (buildWhy wAgentMsg { episodic := [], declarative := [], procedural := [] })
      rfl rfl rfl rfl rfl,
   (c5_history_append pureHooks (failStore "x".toList) (fun _ => .ok [1])
      (fun _ => .ok wAgentMsg) 0
      [{ who := "Human", message := "a".toList, why := none }]
      { text := "hi".toList, user_id := "u" } "hi".toList rfl).2 "x".toList rfl⟩

/-- Recognizer for episodic `add_texts` events. -/
def isEpisodicAdd : Event → Bool
  | .episodicAdd _ _ _ => true
  | _ => false

/-- C4 (amended): every run that passes the agent-execution stage
(success or parse-failure degradation alike) stores the current working
message text — the inbound text as transformed by the read hook and by
oversize segmentation — as exactly one episodic memory entry tagged
with the requesting user_id and the creation timestamp, after the agent
call and before the send hook. -/
theorem c4_episodic_persistence (hooks : Hooks) (vs : VectorStore)
    (embed : List Char → Except Err Vec)
    (agent : AgentInput → Except Err AgentMessage) (now : Nat)
    (history : List Turn) (msg : UserMessage) (t1 : List Char)
    (r : RecallResults) (rtr : List Event) (cmsg : AgentMessage)
    (h1 : hooks.beforeReadMessage msg.text = .ok t1)
    (h2 : recallStage hooks vs embed msg.user_id (segmentText t1).1 = (.ok r, rtr))
    (h3 : agentStage agent (segmentText t1).1 r = .ok cmsg) :
    (handle hooks vs embed agent now history msg).2 =
      segIngest (segmentText t1).2 ++ rtr ++
        [.agentCall, .episodicAdd (segmentText t1).1 msg.user_id now, .sendHook] ∧
    (handle hooks vs embed agent now history msg).2.filter isEpisodicAdd =
      [.episodicAdd (segmentText t1).1 msg.user_id now] := by
  have htr : (handle hooks vs embed agent now history msg).2 =
      segIngest (segmentText t1).2 ++ rtr ++
        [.agentCall, .episodicAdd (segmentText t1).1 msg.user_id now, .sendHook] := by
    unfold handle
    rw [h1]
    simp only [h2, h3]
    cases hsend : hooks.beforeSendMessage (mkFinalOutput msg.user_id cmsg r) with
    | error e => simp
    | ok fo2 => cases hc : fo2.content <;> cases hw : fo2.why <;> simp [hc, hw]
  refine ⟨htr, ?_⟩
  rw [htr]
  rw [List.filter_append, List.filter_append]
  have hseg0 : (segIngest (segmentText t1).2).filter isEpisodicAdd = [] := by
    rw [List.filter_eq_nil_iff]
    intro a ha
    obtain ⟨t, ht⟩ := segIngest_events _ a ha
    subst ht
    simp [isEpisodicAdd]
  have hrtr0 : rtr.filter isEpisodicAdd = [] := by
    rw [List.filter_eq_nil_iff]
    intro a ha
    have hsh := recallStage_events hooks vs embed msg.user_id (segmentText t1).1
    rw [h2] at hsh
    rcases hsh a ha with ⟨q, hq⟩ | ⟨t, c, htc⟩ <;> subst a <;> simp [isEpisodicAdd]
  rw [hseg0, hrtr0]
  simp [isEpisodicAdd]

/-- The C4 counterexample text: 500 non-space characters, then a space
at index 500, then one more character (length 502). -/
def c4Text : List Char := List.replicate 500 'a' ++ [' ', 'z']

/-- A concrete oversized-message run used by the C4 counterexample. -/
def c4Run : Except Err (FinalOutput × List Turn) × List Event :=
  handle pureHooks (constStore [] [] []) (fun _ => .ok [1]) (fun _ => .ok wAgentMsg)
    0 [] { text := c4Text, user_id := "u" }

theorem c4Text_length : c4Text.length = 502 := by
  simp only [c4Text, List.length_append, List.length_replicate, List.length_cons,
    List.length_nil]

theorem c4_seg : segmentText c4Text = (c4Text.take 500, some (c4Text.drop 500)) := by
  apply segmentText_ws c4Text 500
  · rw [c4Text_length]
    omega
  · omega
  · omega
  · have h500 : (List.replicate 500 'a').length ≤ 500 := by rw [List.length_replicate]
    rw [c4Text, List.getD_append_right _ _ _ _ h500, List.length_replicate,
      Nat.sub_self, List.getD_cons_zero]
    rfl
  · intro m hm1 hm2
    omega

/-- C4 counterexample.  For an oversized inbound message, the episodic
entry stores the truncated working text, not the original user message
text: the original 502-character text is never stored. -/
theorem c4_counterexample :
    Event.episodicAdd (c4Text.take 500) "u" 0 ∈ c4Run.2 ∧
    Event.episodicAdd c4Text "u" 0 ∉ c4Run.2 ∧
    c4Text.take 500 ≠ c4Text := by
  have hne : c4Text.take 500 ≠ c4Text := by
    intro h
    have hcon := congrArg List.length h
    rw [List.length_take, c4Text_length] at hcon
    omega
  have hrun := handle_ok_path pureHooks (constStore [] [] []) (fun _ => .ok [1])
    (fun _ => .ok wAgentMsg) 0 [] { text := c4Text, user_id := "u" } c4Text
    { episodic := [], declarative := [], procedural := [] } _ wAgentMsg
    (mkFinalOutput "u" wAgentMsg { episodic := [], declarative := [], procedural := [] })
    "yo".toList
    (buildWhy wAgentMsg { episodic := [], declarative := [], procedural := [] })
    rfl rfl rfl rfl rfl rfl
  have htr := congrArg Prod.snd hrun
  simp only at htr
  rw [show c4Run.2 = (handle pureHooks (constStore [] [] []) (fun _ => .ok [1])
      (fun _ => .ok wAgentMsg) 0 [] { text := c4Text, user_id := "u" }).2 from rfl, htr]
  rw [c4_seg]
  simp only [segIngest, List.mem_append, List.mem_cons, List.not_mem_nil]
  refine ⟨by simp, ?_, hne⟩
  intro hmem
  simp only [List.mem_append, List.mem_cons, List.not_mem_nil, or_false,
    or_assoc] at hmem
  rcases hmem with h | h | h | h | h | h | h | h <;>
    first
      | exact Event.noConfusion h
      | (injection h with h1 h2 h3; exact hne h1.symm)

/-- C4 witness: a concrete completed run stores exactly one episodic
entry, carrying the working text, the user id and the timestamp. -/
theorem c4_witness :
    (handle pureHooks (constStore [] [] []) (fun _ => .ok [1]) (fun _ => .ok wAgentMsg)
        0 [] { text := "hi".toList, user_id := "u" }).2.filter isEpisodicAdd =
      [.episodicAdd "hi".toList "u" 0] :=
  (c4_episodic_persistence pureHooks (constStore [] [] []) (fun _ => .ok [1])
    (fun _ => .ok wAgentMsg) 0 [] { text := "hi".toList, user_id := "u" } "hi".toList
    { episodic := [], declarative := [], procedural := [] } _ wAgentMsg rfl rfl rfl).2

/-- C3 (amended): an agent failure whose message contains the delimiter
pattern is not fatal — the pipeline synthesizes a result whose input is
the working message text, whose intermediate_steps is empty and whose
output is the embedded raw model text with every backtick removed
(hence the raw text itself whenever it contains no backtick), and the
chat output carries it; an agent failure without the pattern is
re-raised. -/
theorem c3_parse_failure_fallback (hooks : Hooks) (vs : VectorStore)
    (embed : List Char → Except Err Vec) (now : Nat)
    (history : List Turn) (msg : UserMessage) (t1 : List Char)
    (r : RecallResults) (rtr : List Event) (raw : List Char)
    (h1 : hooks.beforeReadMessage msg.text = .ok t1)
    (h2 : recallStage hooks vs embed msg.user_id (segmentText t1).1 = (.ok r, rtr))
    (hsend : ∀ x, hooks.beforeSendMessage x = .ok x)
    (hraw : containsPat parseMarker (raw ++ ['`']) = false) :
    (∀ agent : AgentInput → Except Err AgentMessage,
      agent { text := (segmentText t1).1, recalls := r } =
          .error (parseMarker ++ raw ++ ['`']) →
      (handle hooks vs embed agent now history msg).1 =
        .ok (mkFinalOutput msg.user_id
              { input := (segmentText t1).1, intermediate_steps := [],
                output := raw.filter (· ≠ '`') } r,
             history ++
               [{ who := "Human", message := (segmentText t1).1, why := none },
                { who := "AI", message := raw.filter (· ≠ '`'),
                  why := some (buildWhy
                    { input := (segmentText t1).1, intermediate_steps := [],
                      output := raw.filter (· ≠ '`') } r) }])) ∧
    ('`' ∉ raw → raw.filter (· ≠ '`') = raw) ∧
    (∀ (agent : AgentInput → Except Err AgentMessage) (e : Err),
      containsPat parseMarker e = false →
      agent { text := (segmentText t1).1, recalls := r } = .error e →
      (handle hooks vs embed agent now history msg).1 = .error e) := by
  refine ⟨?_, ?_, ?_⟩
  · intro agent ha
    have h3 : agentStage agent (segmentText t1).1 r =
        .ok { input := (segmentText t1).1, intermediate_steps := [],
              output := raw.filter (· ≠ '`') } := by
      simp only [agentStage, ha, agentErrorRecovery]
      rw [if_pos (by rw [List.append_assoc]; exact containsPat_append_self _ _)]
      rw [recovery_of_delimited raw hraw]
    rw [handle_ok_path hooks vs embed agent now history msg t1 r rtr
      { input := (segmentText t1).1, intermediate_steps := [],
        output := raw.filter (· ≠ '`') }
      (mkFinalOutput msg.user_id
        { input := (segmentText t1).1, intermediate_steps := [],
          output := raw.filter (· ≠ '`') } r)
      (raw.filter (· ≠ '`'))
      (buildWhy
        { input := (segmentText t1).1, intermediate_steps := [],
          output := raw.filter (· ≠ '`') } r)
      h1 h2 h3 (hsend _) rfl rfl]
  · intro hmem
    rw [List.filter_eq_self]
    intro a ha
    simp only [decide_eq_true_eq]
    intro hcon
    subst hcon
    exact hmem ha
  · intro agent e he ha
    have h3 : agentStage agent (segmentText t1).1 r = .error e := by
      simp only [agentStage, ha, agentErrorRecovery]
      rw [if_neg (by simp [he])]
    rw [handle_agent_raise hooks vs embed agent now history msg t1 r rtr e h1 h2 h3]

/-- C3 witness: the spec's "hello world" example — the agent failure
message "Could not parse LLM output: (backtick)hello world(backtick)"
degrades into a chat output whose content is exactly "hello world" with
empty intermediate steps. -/
theorem c3_witness :
    (handle pureHooks (constStore [] [] []) (fun _ => .ok [1])
        (fun _ => .error (parseMarker ++ "hello world".toList ++ ['`']))
        0 [] { text := "hi".toList, user_id := "u" }).1 =
      .ok (mkFinalOutput "u"
            { input := "hi".toList, intermediate_steps := [],
              output := ("hello world".toList).filter (· ≠ '`') }
            { episodic := [], declarative := [], procedural := [] },
           [{ who := "Human", message := "hi".toList, why := none },
            { who := "AI", message := ("hello world".toList).filter (· ≠ '`'),
              why := some (buildWhy
                { input := "hi".toList, intermediate_steps := [],
                  output := ("hello world".toList).filter (· ≠ '`') }
                { episodic := [], declarative := [], procedural := [] }) }]) ∧
    ("hello world".toList).filter (· ≠ '`') = "hello world".toList :=
  ⟨(c3_parse_failure_fallback pureHooks (constStore [] [] []) (fun _ => .ok [1])
      0 [] { text := "hi".toList, user_id := "u" } "hi".toList
      { episodic := [], declarative := [], procedural := [] } _ "hello world".toList
      rfl rfl (fun _ => rfl) (by decide)).1 _ rfl,
   (c3_parse_failure_fallback pureHooks (constStore [] [] []) (fun _ => .ok [1])
      0 [] { text := "hi".toList, user_id := "u" } "hi".toList
      { episodic := [], declarative := [], procedural := [] } _ "hello world".toList
      rfl rfl (fun _ => rfl) (by decide)).2.1 (by decide)⟩

/-- Hooks whose recall-query rewriting hook raises. -/
def c9Hooks : Hooks :=
  { pureHooks with recallQuery := fun _ => .error "hook failure".toList }

/-- C9 counterexample.  A raising `cat_recall_query` hook's exception
does not propagate to the caller of `handle`: it is caught by the
recall try/except, whose handler then itself raises a `TypeError` on
`traceback.print_exc(e)` — so the caller sees a `TypeError`, a
different exception than the hook's. -/
theorem c9_counterexample :
    c9Hooks.recallQuery "hi".toList = .error "hook failure".toList ∧
    (handle c9Hooks (constStore [] [] []) (fun _ => .ok [1]) (fun _ => .ok wAgentMsg)
        0 [] { text := "hi".toList, user_id := "u" }).1 =
      .error printExcTypeError ∧
    printExcTypeError ≠ "hook failure".toList ∧
    (handle c9Hooks (constStore [] [] []) (fun _ => .ok [1]) (fun _ => .ok wAgentMsg)
        0 [] { text := "hi".toList, user_id := "u" }).1 ≠
      .error "hook failure".toList := by
  refine ⟨rfl, rfl, by decide, ?_⟩
  intro h
  rw [show (handle c9Hooks (constStore [] [] []) (fun _ => .ok [1])
      (fun _ => .ok wAgentMsg) 0 [] { text := "hi".toList, user_id := "u" }).1 =
    .error printExcTypeError from rfl] at h
  have hinj : printExcTypeError = "hook failure".toList := by
    injection h
  exact absurd hinj (by decide)

/-- C9 (amended): hooks invoked outside the recall try/except block
(`before_cat_reads_message`, `before_cat_sends_message`) propagate
their own exception to the caller of `handle`; an exception raised by
a recall-stage hook (e.g. `cat_recall_query`) is caught by that block,
whose handler then crashes on `traceback.print_exc(e)` — so a
`TypeError`, not the hook's exception and not a `VectorMemoryError`
output, reaches the caller. -/
theorem c9_hook_propagation (hooks : Hooks) (vs : VectorStore)
    (embed : List Char → Except Err Vec)
    (agent : AgentInput → Except Err AgentMessage) (now : Nat)
    (history : List Turn) (msg : UserMessage) :
    (∀ e : Err, hooks.beforeReadMessage msg.text = .error e →
       (handle hooks vs embed agent now history msg).1 = .error e) ∧
    (∀ (t1 : List Char) (r : RecallResults) (rtr : List Event)
       (cmsg : AgentMessage) (e : Err),
       hooks.beforeReadMessage msg.text = .ok t1 →
       recallStage hooks vs embed msg.user_id (segmentText t1).1 = (.ok r, rtr) →
       agentStage agent (segmentText t1).1 r = .ok cmsg →
       hooks.beforeSendMessage (mkFinalOutput msg.user_id cmsg r) = .error e →
       (handle hooks vs embed agent now history msg).1 = .error e) ∧
    (∀ (t1 : List Char) (e : Err),
       hooks.beforeReadMessage msg.text = .ok t1 →
       hooks.recallQuery (segmentText t1).1 = .error e →
       (handle hooks vs embed agent now history msg).1 = .error printExcTypeError) := by
  refine ⟨?_, ?_, ?_⟩
  · intro e h1
    rw [handle_read_raise hooks vs embed agent now history msg e h1]
  · intro t1 r rtr cmsg e h1 h2 h3 h4
    rw [handle_send_raise hooks vs embed agent now history msg t1 r rtr cmsg e
      h1 h2 h3 h4]
  · intro t1 e h1 hq
    have h2 : recallStage hooks vs embed msg.user_id (segmentText t1).1 =
        (.error e, []) := by
      simp only [recallStage, hq]
    rw [handle_recall_raise hooks vs embed agent now history msg t1 [] e h1 h2]

/-- Hooks whose read hook raises. -/
def c9ReadHooks : Hooks :=
  { pureHooks with beforeReadMessage := fun _ => .error "read boom".toList }

/-- Hooks whose send hook raises. -/
def c9SendHooks : Hooks :=
  { pureHooks with beforeSendMessage := fun _ => .error "send boom".toList }

/-- C9 witness: concrete runs in which (a) a raising read hook and (b)
a raising send hook propagate their own exception out of `handle`,
while (c) a raising recall-stage hook surfaces as the handler's
`TypeError` instead. -/
theorem c9_witness :
    (handle c9ReadHooks (constStore [] [] []) (fun _ => .ok [1])
        (fun _ => .ok wAgentMsg) 0 [] { text := "hi".toList, user_id := "u" }).1 =
      .error "read boom".toList ∧
    (handle c9SendHooks (constStore [] [] []) (fun _ => .ok [1])
        (fun _ => .ok wAgentMsg) 0 [] { text := "hi".toList, user_id := "u" }).1 =
      .error "send boom".toList ∧
    (handle c9Hooks (constStore [] [] []) (fun _ => .ok [1])
        (fun _ => .ok wAgentMsg) 0 [] { text := "hi".toList, user_id := "u" }).1 =
      .error printExcTypeError :=
  ⟨(c9_hook_propagation c9ReadHooks (constStore [] [] []) (fun _ => .ok [1])
      (fun _ => .ok wAgentMsg) 0 [] { text := "hi".toList, user_id := "u" }).1
      "read boom".toList rfl,
   (c9_hook_propagation c9SendHooks (constStore [] [] []) (fun _ => .ok [1])
      (fun _ => .ok wAgentMsg) 0 [] { text := "hi".toList, user_id := "u" }).2.1
      "hi".toList { episodic := [], declarative := [], procedural := [] } _ wAgentMsg
      "send boom".toList rfl rfl rfl rfl,
   (c9_hook_propagation c9Hooks (constStore [] [] []) (fun _ => .ok [1])
      (fun _ => .ok wAgentMsg) 0 [] { text := "hi".toList, user_id := "u" }).2.2
      "hi".toList "hook failure".toList rfl rfl⟩

/-- Recognizer for embedder-invocation events. -/
def isEmbed : Event → Bool
  | .embed _ => true
  | _ => false

/-- C8: per recall invocation the (possibly hook-rewritten) query is
embedded exactly once, and that single vector is placed in all three
default per-tier recall configs; the default episodic config filters on
the requesting user while the default declarative and procedural
configs carry no metadata filter. -/
theorem c8_single_embedding (hooks : Hooks) (vs : VectorStore)
    (embed : List Char → Except Err Vec) (uid : String) (text q : List Char)
    (v : Vec) (epi dec pro : List RecallItem)
    (hq : hooks.recallQuery text = .ok q) :
    (recallStage hooks vs embed uid text).2.filter isEmbed = [Event.embed q] ∧
    (embed q = .ok v →
     hooks.beforeRecalls = .ok () →
     (∀ c, hooks.beforeEpisodic c = .ok c) →
     (∀ c, hooks.beforeDeclarative c = .ok c) →
     (∀ c, hooks.beforeProcedural c = .ok c) →
     vs.queryEpisodic (defaultEpisodicRecallConfig v uid) = .ok epi →
     vs.queryDeclarative (defaultDeclarativeRecallConfig v) = .ok dec →
     vs.queryProcedural (defaultProceduralRecallConfig v) = .ok pro →
     (recallStage hooks vs embed uid text).2 =
       [Event.embed q,
        Event.query "episodic" (defaultEpisodicRecallConfig v uid),
        Event.query "declarative" (defaultDeclarativeRecallConfig v),
        Event.query "procedural" (defaultProceduralRecallConfig v)]) ∧
    (defaultEpisodicRecallConfig v uid).embedding = v ∧
    (defaultDeclarativeRecallConfig v).embedding = v ∧
    (defaultProceduralRecallConfig v).embedding = v ∧
    (defaultEpisodicRecallConfig v uid).metadata = some uid ∧
    (defaultDeclarativeRecallConfig v).metadata = none ∧
    (defaultProceduralRecallConfig v).metadata = none := by
  refine ⟨?_, ?_, rfl, rfl, rfl, rfl, rfl, rfl⟩
  · simp only [recallStage, hq]
    repeat' split
    all_goals simp [isEmbed]
  · intro hv hbr hE hD hP he hd hp
    simp only [recallStage, hq, hv, hbr, hE, hD, hP, he, hd, hp]
    cases hooks.afterRecalls <;> rfl

/-- C8 witness: a concrete recall run embeds the query once and issues
exactly the three default-config tier queries. -/
theorem c8_witness :
    (recallStage pureHooks (constStore [] [] []) (fun _ => .ok [5]) "u"
        "hi".toList).2.filter isEmbed = [Event.embed "hi".toList] ∧
    (recallStage pureHooks (constStore [] [] []) (fun _ => .ok [5]) "u"
        "hi".toList).2 =
      [Event.embed "hi".toList,
       Event.query "episodic" (defaultEpisodicRecallConfig [5] "u"),
       Event.query "declarative" (defaultDeclarativeRecallConfig [5]),
       Event.query "procedural" (defaultProceduralRecallConfig [5])] ∧
    (defaultEpisodicRecallConfig [5] "u").metadata = some "u" ∧
    (defaultDeclarativeRecallConfig [5]).metadata = none ∧
    (defaultProceduralRecallConfig [5]).metadata = none :=
  ⟨(c8_single_embedding pureHooks (constStore [] [] []) (fun _ => .ok [5]) "u"
      "hi".toList "hi".toList [5] [] [] [] rfl).1,
   (c8_single_embedding pureHooks (constStore [] [] []) (fun _ => .ok [5]) "u"
      "hi".toList "hi".toList [5] [] [] [] rfl).2.1 rfl rfl (fun _ => rfl)
      (fun _ => rfl) (fun _ => rfl) rfl rfl rfl,
   (c8_single_embedding pureHooks (constStore [] [] []) (fun _ => .ok [5]) "u"
      "hi".toList "hi".toList [5] [] [] [] rfl).2.2.2.2.2.1,
   (c8_single_embedding pureHooks (constStore [] [] []) (fun _ => .ok [5]) "u"
      "hi".toList "hi".toList [5] [] [] [] rfl).2.2.2.2.2.2.1,
   (c8_single_embedding pureHooks (constStore [] [] []) (fun _ => .ok [5]) "u"
      "hi".toList "hi".toList [5] [] [] [] rfl).2.2.2.2.2.2.2⟩

/-! ### Lemmas about the tool index synchronizer -/

theorem mkRecords_map_descr (ts : List Tool) :
    ∀ n, (mkRecords n ts).map (·.descr) = ts.map (·.description) := by
  induction ts with
  | nil => intro n; rfl
  | cons t ts ih => intro n; simp [mkRecords, ih]

theorem embed_tools_fst (now n : Nat) (persisted : List ToolRecord) (tools : List Tool) :
    (embed_tools now n persisted tools).1 =
      persisted.filter (fun r => decide (r.descr ∈ tools.map (·.description))) ++
      mkRecords n (tools.filter (fun t => decide (t.description ∉ persisted.map (·.descr)))) :=
  rfl

theorem embed_tools_snd (now n : Nat) (persisted : List ToolRecord) (tools : List Tool) :
    (embed_tools now n persisted tools).2 =
      (tools.filter (fun t => decide (t.description ∉ persisted.map (·.descr)))).map
        (fun t => ToolEvent.add t.description "tool" now t.name t.docstring) ++
      (if (persisted.filter (fun r => decide (r.descr ∉ tools.map (·.description)))).map (·.id) = []
       then []
       else [ToolEvent.deleteBatch
         ((persisted.filter (fun r => decide (r.descr ∉ tools.map (·.description)))).map (·.id))]) :=
  rfl

/-- After a sync, the persisted descriptions are exactly the live tool
descriptions. -/
theorem embed_tools_descr_iff (now n : Nat) (persisted : List ToolRecord)
    (tools : List Tool) (d : String) :
    d ∈ (embed_tools now n persisted tools).1.map (·.descr) ↔
      d ∈ tools.map (·.description) := by
  rw [embed_tools_fst]
  rw [List.map_append, List.mem_append, mkRecords_map_descr]
  constructor
  · rintro (h | h)
    · obtain ⟨r, hr, hrd⟩ := List.mem_map.mp h
      have := List.mem_filter.mp hr
      simp only [decide_eq_true_eq] at this
      exact hrd ▸ this.2
    · obtain ⟨t, ht, htd⟩ := List.mem_map.mp h
      exact htd ▸ List.mem_map_of_mem _ (List.mem_of_mem_filter ht)
  · intro h
    by_cases hd : d ∈ persisted.map (·.descr)
    · left
      obtain ⟨r, hr, hrd⟩ := List.mem_map.mp hd
      refine List.mem_map.mpr ⟨r, List.mem_filter.mpr ⟨hr, ?_⟩, hrd⟩
      simp only [decide_eq_true_eq]
      exact hrd ▸ h
    · right
      obtain ⟨t, ht, htd⟩ := List.mem_map.mp h
      refine List.mem_map.mpr ⟨t, List.mem_filter.mpr ⟨ht, ?_⟩, htd⟩
      simp only [decide_eq_true_eq]
      exact htd ▸ hd

/-- Every record a sync leaves in the store has a live description. -/
theorem embed_tools_live (now n : Nat) (persisted : List ToolRecord)
    (tools : List Tool) :
    ∀ r ∈ (embed_tools now n persisted tools).1,
      r.descr ∈ tools.map (·.description) := by
  intro r hr
  exact (embed_tools_descr_iff now n persisted tools r.descr).mp
    (List.mem_map_of_mem _ hr)

/-- C6: tool-index synchronization is idempotent: a second sync on an
unchanged tool set issues no upsert and no delete and leaves the
persisted records unchanged; and (for tool sets and stores without
duplicated descriptions, descriptions being the indexing identity) a
sync never produces duplicate persisted records. -/
theorem c6_embed_tools_idempotent (now now2 n n2 : Nat)
    (persisted : List ToolRecord) (tools : List Tool) :
    (embed_tools now2 n2 (embed_tools now n persisted tools).1 tools).2 = [] ∧
    (embed_tools now2 n2 (embed_tools now n persisted tools).1 tools).1 =
      (embed_tools now n persisted tools).1 ∧
    ((tools.map (·.description)).Nodup → (persisted.map (·.descr)).Nodup →
      ((embed_tools now n persisted tools).1.map (·.descr)).Nodup) := by
  have hlive := embed_tools_live now n persisted tools
  have htoAdd2 : tools.filter
      (fun t => decide (t.description ∉ (embed_tools now n persisted tools).1.map (·.descr))) = [] := by
    rw [List.filter_eq_nil_iff]
    intro t ht
    simp only [decide_eq_true_eq, not_not]
    exact (embed_tools_descr_iff now n persisted tools t.description).mpr
      (List.mem_map_of_mem _ ht)
  have hstale2 : (embed_tools now n persisted tools).1.filter
      (fun r => decide (r.descr ∉ tools.map (·.description))) = [] := by
    rw [List.filter_eq_nil_iff]
    intro r hr
    simp only [decide_eq_true_eq, not_not]
    exact hlive r hr
  refine ⟨?_, ?_, ?_⟩
  · rw [embed_tools_snd, htoAdd2, hstale2]
    simp
  · rw [embed_tools_fst, htoAdd2]
    have hself : (embed_tools now n persisted tools).1.filter
        (fun r => decide (r.descr ∈ tools.map (·.description))) =
        (embed_tools now n persisted tools).1 := by
      rw [List.filter_eq_self]
      intro r hr
      simp only [decide_eq_true_eq]
      exact hlive r hr
    rw [hself]
    simp [mkRecords]
  · intro hnl hnp
    rw [embed_tools_fst, List.map_append, mkRecords_map_descr]
    apply List.Nodup.append
    · exact hnp.sublist (List.Sublist.map _ (List.filter_sublist _))
    · exact hnl.sublist (List.Sublist.map _ (List.filter_sublist _))
    · intro d hd1 hd2
      obtain ⟨r, hr, hrd⟩ := List.mem_map.mp hd1
      obtain ⟨t, ht, htd⟩ := List.mem_map.mp hd2
      have hrmem := List.mem_filter.mp hr
      have htmem := List.mem_filter.mp ht
      simp only [decide_eq_true_eq] at hrmem htmem
      apply htmem.2
      rw [htd, ← hrd]
      exact List.mem_map_of_mem _ hrmem.1

/-- C6 witness: a concrete second sync on an unchanged tool set issues
no calls and keeps the records identical, and the resulting records
have pairwise distinct descriptions. -/
theorem c6_witness :
    (embed_tools 1 5 (embed_tools 0 3 [{ id := 0, descr := "A" }]
        [{ name := "x", description := "A", docstring := "d" },
         { name := "y", description := "B", docstring := "e" }]).1
        [{ name := "x", description := "A", docstring := "d" },
         { name := "y", description := "B", docstring := "e" }]).2 = [] ∧
    (embed_tools 1 5 (embed_tools 0 3 [{ id := 0, descr := "A" }]
        [{ name := "x", description := "A", docstring := "d" },
         { name := "y", description := "B", docstring := "e" }]).1
        [{ name := "x", description := "A", docstring := "d" },
         { name := "y", description := "B", docstring := "e" }]).1 =
      (embed_tools 0 3 [{ id := 0, descr := "A" }]
        [{ name := "x", description := "A", docstring := "d" },
         { name := "y", description := "B", docstring := "e" }]).1 ∧
    ((embed_tools 0 3 [{ id := 0, descr := "A" }]
        [{ name := "x", description := "A", docstring := "d" },
         { name := "y", description := "B", docstring := "e" }]).1.map (·.descr)).Nodup :=
  ⟨(c6_embed_tools_idempotent 0 1 3 5 [{ id := 0, descr := "A" }]
      [{ name := "x", description := "A", docstring := "d" },
       { name := "y", description := "B", docstring := "e" }]).1,
   (c6_embed_tools_idempotent 0 1 3 5 [{ id := 0, descr := "A" }]
      [{ name := "x", description := "A", docstring := "d" },
       { name := "y", description := "B", docstring := "e" }]).2.1,
   (c6_embed_tools_idempotent 0 1 3 5 [{ id := 0, descr := "A" }]
      [{ name := "x", description := "A", docstring := "d" },
       { name := "y", description := "B", docstring := "e" }]).2.2
      (by decide) (by decide)⟩

/-- Recognizer for batched-delete calls. -/
def isDeleteBatch : ToolEvent → Bool
  | .deleteBatch _ => true
  | _ => false

/-- C7: reconciliation is by exact description equality — every live
tool whose description is absent from the persisted records is upserted
with metadata `{source := "tool", when := now, name, docstring}`; all
stale record ids are deleted through at most one single batched delete
call; afterwards the persisted descriptions are exactly the live ones.
In particular, persisted `{A,B,C}` against live `{A,C,D}` ends as
exactly `{A,C,D}` via one add call (for D) and one delete batch (for
B's id). -/
theorem c7_embed_tools_reconciliation (now n : Nat)
    (persisted : List ToolRecord) (tools : List Tool) :
    (∀ t ∈ tools, t.description ∉ persisted.map (·.descr) →
      ToolEvent.add t.description "tool" now t.name t.docstring ∈
        (embed_tools now n persisted tools).2) ∧
    (∀ d, d ∈ (embed_tools now n persisted tools).1.map (·.descr) ↔
      d ∈ tools.map (·.description)) ∧
    ((embed_tools now n persisted tools).2.countP isDeleteBatch ≤ 1) ∧
    (∀ ids, ToolEvent.deleteBatch ids ∈ (embed_tools now n persisted tools).2 →
      ids = (persisted.filter
        (fun r => decide (r.descr ∉ tools.map (·.description)))).map (·.id)) ∧
    (∀ r ∈ persisted, r.descr ∉ tools.map (·.description) →
      ∃ ids, ToolEvent.deleteBatch ids ∈ (embed_tools now n persisted tools).2 ∧
        r.id ∈ ids) ∧
    ((embed_tools 0 10
        [{ id := 1, descr := "A" }, { id := 2, descr := "B" }, { id := 3, descr := "C" }]
        [{ name := "ta", description := "A", docstring := "da" },
         { name := "tc", description := "C", docstring := "dc" },
         { name := "td", description := "D", docstring := "dd" }]).1.map (·.descr) =
      ["A", "C", "D"]) ∧
    ((embed_tools 0 10
        [{ id := 1, descr := "A" }, { id := 2, descr := "B" }, { id := 3, descr := "C" }]
        [{ name := "ta", description := "A", docstring := "da" },
         { name := "tc", description := "C", docstring := "dc" },
         { name := "td", description := "D", docstring := "dd" }]).2 =
      [ToolEvent.add "D" "tool" 0 "td" "dd", ToolEvent.deleteBatch [2]]) := by
  refine ⟨?_, embed_tools_descr_iff now n persisted tools, ?_, ?_, ?_, by decide, by decide⟩
  · intro t ht hmiss
    rw [embed_tools_snd, List.mem_append]
    left
    refine List.mem_map.mpr ⟨t, List.mem_filter.mpr ⟨ht, ?_⟩, rfl⟩
    simp only [decide_eq_true_eq]
    exact hmiss
  · rw [embed_tools_snd, List.countP_append]
    have h0 : ((tools.filter
        (fun t => decide (t.description ∉ persisted.map (·.descr)))).map
          (fun t => ToolEvent.add t.description "tool" now t.name t.docstring)).countP
            isDeleteBatch = 0 := by
      rw [List.countP_eq_zero]
      intro ev hev
      obtain ⟨t, _, htd⟩ := List.mem_map.mp hev
      subst htd
      simp [isDeleteBatch]
    rw [h0]
    split
    · simp
    · simp [isDeleteBatch]
  · intro ids hids
    rw [embed_tools_snd, List.mem_append] at hids
    rcases hids with h | h
    · obtain ⟨t, _, htd⟩ := List.mem_map.mp h
      exact ToolEvent.noConfusion htd
    · revert h
      split
      · intro h
        exact absurd h (List.not_mem_nil _)
      · intro h
        rw [List.mem_singleton] at h
        injection h.symm with h'
        exact h'.symm
  · intro r hr hstale
    have hmem : r.id ∈ (persisted.filter
        (fun r => decide (r.descr ∉ tools.map (·.description)))).map (·.id) := by
      refine List.mem_map.mpr ⟨r, List.mem_filter.mpr ⟨hr, ?_⟩, rfl⟩
      simp only [decide_eq_true_eq]
      exact hstale
    refine ⟨(persisted.filter
      (fun r => decide (r.descr ∉ tools.map (·.description)))).map (·.id), ?_, hmem⟩
    rw [embed_tools_snd, List.mem_append]
    right
    split
    · rename_i hnil
      rw [hnil] at hmem
      exact absurd hmem (List.not_mem_nil _)
    · exact List.mem_singleton.mpr rfl

/-- C7 witness: in the `{A,B,C}` vs `{A,C,D}` example, tool D is
upserted with its metadata and record B's id is deleted through the
single batched delete call. -/
theorem c7_witness :
    ToolEvent.add "D" "tool" 0 "td" "dd" ∈
      (embed_tools 0 10
        [{ id := 1, descr := "A" }, { id := 2, descr := "B" }, { id := 3, descr := "C" }]
        [{ name := "ta", description := "A", docstring := "da" },
         { name := "tc", description := "C", docstring := "dc" },
         { name := "td", description := "D", docstring := "dd" }]).2 ∧
    ∃ ids, ToolEvent.deleteBatch ids ∈
      (embed_tools 0 10
        [{ id := 1, descr := "A" }, { id := 2, descr := "B" }, { id := 3, descr := "C" }]
        [{ name := "ta", description := "A", docstring := "da" },
         { name := "tc", description := "C", docstring := "dc" },
         { name := "td", description := "D", docstring := "dd" }]).2 ∧ (2 : Nat) ∈ ids :=
  ⟨(c7_embed_tools_reconciliation 0 10
      [{ id := 1, descr := "A" }, { id := 2, descr := "B" }, { id := 3, descr := "C" }]
      [{ name := "ta", description := "A", docstring := "da" },
       { name := "tc", description := "C", docstring := "dc" },
       { name := "td", description := "D", docstring := "dd" }]).1
      { name := "td", description := "D", docstring := "dd" } (by decide) (by decide),
   (c7_embed_tools_reconciliation 0 10
      [{ id := 1, descr := "A" }, { id := 2, descr := "B" }, { id := 3, descr := "C" }]
      [{ name := "ta", description := "A", docstring := "da" },
       { name := "tc", description := "C", docstring := "dc" },
       { name := "td", description := "D", docstring := "dd" }]).2.2.2.2.1
      { id := 2, descr := "B" } (by decide) (by decide)⟩

end CheshireCat
